import Mathlib

/-!
Verification of the work-order extraction pipeline of `next-extractv3`.

Shallow embedding of:
- `src/lib/workOrders/processing.ts` (locator, rule-based extractor, orchestrator)
- the AI parser / PDF extractor module (`aiParseWorkOrdersFromEmail`,
  `parseAiResponse`, `extractTextFromPdfBuffer`)
- the work-order repository (`findByWorkOrderNumbers`, `saveMany`),
  modelled over an explicit list-of-rows store with the same tenant
  scoping as the Drizzle queries (`isNull` / `eq` on `userId`)
- `src/lib/workOrders/mappers.ts` (`sanitizeAmount`)

External effects (database, OpenAI call, PDF engines, filesystem) are
modelled as explicit parameters: the store is a list of rows threaded
through the orchestrator, the AI call outcome and the two PDF engines'
outcomes are inputs.  JavaScript semantics used by the code (string
falsiness, `Array.prototype.filter/map`, `Set` membership, regex search)
are translated into executable Lean functions below.
-/

namespace NextExtract

/-- Type `EmailAttachment` from `src/lib/emailMessages` types. -/
structure EmailAttachment where
  id : String
  filename : String
  mimeType : String
  sizeBytes : Option Int
  storageLocation : Option String
deriving Repr, DecidableEq

/-- Type `EmailMessage` from `src/lib/emailMessages` types (provider collapsed to
its string value; all ISO timestamps kept as strings, as in the TS type). -/
structure EmailMessage where
  id : String
  provider : String
  externalId : Option String
  fromAddress : String
  toAddress : String
  subject : String
  receivedAt : String
  processingStatus : String
  hasPdfAttachments : Bool
  pdfAttachmentCount : Int
  attachments : List EmailAttachment
  duplicateOfWorkOrderId : Option String
  createdAt : String
  updatedAt : String
deriving Repr, DecidableEq

/-- Shape `Omit<WorkOrderInput, "userId">` from `src/lib/workOrders/types.ts`:
the candidate record built by both extractors before the tenant is
attached.  Optional-or-null TS fields become `Option String`. -/
structure WorkOrderInputNoUser where
  id : Option String := none
  timestampExtracted : String
  workOrderNumber : String
  customerName : Option String := none
  vendorName : Option String := none
  serviceAddress : Option String := none
  jobType : Option String := none
  jobDescription : Option String := none
  scheduledDate : Option String := none
  amount : Option String := none
  currency : Option String := none
  notes : Option String := none
  priority : Option String := none
  calendarEventLink : Option String := none
  workOrderPdfLink : Option String := none
  createdAt : Option String := none
deriving Repr, DecidableEq

/-- Type `WorkOrderInput` (tenant attached).  `userId` is `Option String`
because the repository explicitly supports the `null` tenant
("free version", queried with `isNull`). -/
structure WorkOrderInput extends WorkOrderInputNoUser where
  userId : Option String
deriving Repr, DecidableEq

/-- Persisted `WorkOrder` row from `src/lib/workOrders/types.ts` /
the Drizzle `workOrders` table. -/
structure WorkOrder where
  id : String
  userId : Option String
  timestampExtracted : String
  workOrderNumber : String
  customerName : Option String := none
  vendorName : Option String := none
  serviceAddress : Option String := none
  jobType : Option String := none
  jobDescription : Option String := none
  scheduledDate : Option String := none
  amount : Option String := none
  currency : Option String := none
  notes : Option String := none
  priority : Option String := none
  calendarEventLink : Option String := none
  workOrderPdfLink : Option String := none
  createdAt : String := ""
deriving Repr, DecidableEq

/-! ### JavaScript string helpers -/

/-- Check `listStartsWith hay needle`: `needle` starts `hay`. -/
def listStartsWith : List Char → List Char → Bool
  | _, [] => true
  | [], _ :: _ => false
  | h :: hs, n :: ns => h == n && listStartsWith hs ns

/-- Check `listHasSub hay needle`: `needle` occurs contiguously in `hay`. -/
def listHasSub : List Char → List Char → Bool
  | [], needle => listStartsWith [] needle
  | c :: rest, needle => listStartsWith (c :: rest) needle || listHasSub rest needle

/-- JS `s.includes(sub)`. -/
def jsIncludes (s sub : String) : Bool :=
  listHasSub s.data sub.data

/-- JS `s.startsWith(pre)`. -/
def jsStartsWith (s pre : String) : Bool :=
  listStartsWith s.data pre.data

/-- JS `s.slice(0, n)` for a non-negative `n`. -/
def sliceTo (s : String) (n : Nat) : String :=
  String.mk (s.data.take n)

/-- JS `\s`, restricted to ASCII whitespace. -/
def isJsWhitespace (c : Char) : Bool :=
  c == ' ' || c == '\t' || c == '\n' || c == '\r' || c == '\x0b' || c == '\x0c'

/-- JS `s.trim()` (ASCII whitespace; the claims only involve ASCII text). -/
def jsTrim (s : String) : String :=
  String.mk (((s.data.dropWhile isJsWhitespace).reverse.dropWhile isJsWhitespace).reverse)

/-- JS `s.toLowerCase()` (ASCII; MIME types and the `pdf` needle are ASCII). -/
def jsToLower (s : String) : String :=
  String.mk (s.data.map Char.toLower)

/-- JS `a || b` on strings: `a` unless `a` is the empty string (falsy). -/
def jsOrStr (a b : String) : String :=
  if a == "" then b else a

/-- JS `s || null` on a string: `none` when `s` is empty (falsy). -/
def jsStrOrNull (s : String) : Option String :=
  if s == "" then none else some s

/-! ### Work-Order-Number Locator (`extractWorkOrderNumberFromText`)

The source uses two JS regexes, searched left to right:
  `/WO#?\s*(\d{5,10})/i`  then  `/\b(\d{6,10})\b/`.
They are embedded as explicit scanning matchers.  Backtracking never
changes the outcome for these patterns (`#?` and `\s*` are followed by a
character class disjoint from what they consume, and the digit groups are
bounded repetitions of a single class), so the greedy, deterministic
matchers below have exactly the regex semantics. -/

/-- JS `\w` (word character): `[A-Za-z0-9_]`. -/
def isWordChar (c : Char) : Bool :=
  c.isAlpha || c.isDigit || c == '_'

/-- Take at most `n` leading decimal digits. -/
def takeDigitsUpTo : Nat → List Char → List Char
  | 0, _ => []
  | _ + 1, [] => []
  | n + 1, c :: cs => if c.isDigit then c :: takeDigitsUpTo n cs else []

/-- Try to match `WO#?\s*(\d{5,10})` (case-insensitive) at the current
position; returns the captured digit group. -/
def matchWOAt : List Char → Option String
  | c1 :: c2 :: rest =>
    if (c1 == 'W' || c1 == 'w') && (c2 == 'O' || c2 == 'o') then
      let rest1 := match rest with
        | '#' :: r => r
        | r => r
      let rest2 := rest1.dropWhile isJsWhitespace
      let ds := takeDigitsUpTo 10 rest2
      if 5 ≤ ds.length then some (String.mk ds) else none
    else none
  | _ => none

/-- Leftmost match of `WO#?\s*(\d{5,10})` (case-insensitive). -/
def findWOMatch : List Char → Option String
  | [] => none
  | c :: rest =>
    match matchWOAt (c :: rest) with
    | some d => some d
    | none => findWOMatch rest

/-- Try to match `\b(\d{6,10})\b` at the current position, given the
previous character (`none` at the start of the string).  A run longer
than 10 digits can never satisfy the trailing word boundary, matching the
regex's backtracking behavior. -/
def matchDigitRunAt (prev : Option Char) (cs : List Char) : Option String :=
  let boundaryBefore := match prev with
    | none => true
    | some p => !isWordChar p
  if boundaryBefore then
    let ds := cs.takeWhile Char.isDigit
    if 6 ≤ ds.length && ds.length ≤ 10 then
      match cs.dropWhile Char.isDigit with
      | [] => some (String.mk ds)
      | c :: _ => if isWordChar c then none else some (String.mk ds)
    else none
  else none

/-- Leftmost match of `\b(\d{6,10})\b`. -/
def findDigitRun : Option Char → List Char → Option String
  | _, [] => none
  | prev, c :: rest =>
    match matchDigitRunAt prev (c :: rest) with
    | some d => some d
    | none => findDigitRun (some c) rest

/-- Locator `extractWorkOrderNumberFromText` from `src/lib/workOrders/processing.ts`:
try the explicit `WO` pattern first, then fall back to the first
standalone 6–10 digit run, else `null`. -/
def extractWorkOrderNumberFromText (subjectOrFilename : String) : Option String :=
  match findWOMatch subjectOrFilename.data with
  | some d => some d
  | none => findDigitRun none subjectOrFilename.data

/-! ### Rule-Based Extractor (`buildWorkOrderInputsFromEmail`) -/

/-- The attachment filter of both extractors:
`att.mimeType.toLowerCase().includes("pdf")`. -/
def isPdfAttachment (att : EmailAttachment) : Bool :=
  jsIncludes (jsToLower att.mimeType) "pdf"

/-- Body of the `pdfAttachments.map((attachment, index) => ...)` callback in
`buildWorkOrderInputsFromEmail`: locator on the filename, then on the
subject, then the synthesized `UNKNOWN-` fallback; placeholder field
values as in the source. -/
def mkRuleBasedInput (email : EmailMessage) (attachment : EmailAttachment)
    (index : Nat) : WorkOrderInputNoUser :=
  let workOrderNumber :=
    match extractWorkOrderNumberFromText attachment.filename with
    | some n => n
    | none =>
      match extractWorkOrderNumberFromText email.subject with
      | some n => n
      | none => "UNKNOWN-" ++ sliceTo email.id 8 ++ "-" ++ toString index
  { workOrderNumber := workOrderNumber
    timestampExtracted := email.receivedAt
    scheduledDate := some email.receivedAt
    serviceAddress := some "Unknown facility"
    jobType := some "General service"
    customerName := none
    vendorName := none
    jobDescription := none
    amount := none
    currency := none
    notes := none
    priority := none
    calendarEventLink := none
    workOrderPdfLink := attachment.storageLocation }

/-- Loop `pdfAttachments.map((attachment, index) => ...)` with its running index. -/
def buildInputsAux (email : EmailMessage) : Nat → List EmailAttachment →
    List WorkOrderInputNoUser
  | _, [] => []
  | i, att :: rest => mkRuleBasedInput email att i :: buildInputsAux email (i + 1) rest

/-- Extractor `buildWorkOrderInputsFromEmail` from `src/lib/workOrders/processing.ts`. -/
def buildWorkOrderInputsFromEmail (email : EmailMessage) : List WorkOrderInputNoUser :=
  let pdfAttachments := email.attachments.filter isPdfAttachment
  if pdfAttachments.length == 0 then []
  else buildInputsAux email 0 pdfAttachments

/-! ### Work-order repository (`DrizzleWorkOrderRepository`)

The store is the list of persisted rows.  `findByWorkOrderNumbers` mirrors
the Drizzle query: `and(userId === null ? isNull(userId) : eq(userId, u),
inArray(workOrderNumber, numbers))` — note that SQL `eq` on a NULL column
is not satisfied, so a null-tenant row never matches a non-null query. -/

/-- Tenant scoping of the repository queries. -/
def userIdMatches (rowUserId queryUserId : Option String) : Bool :=
  match queryUserId with
  | none => rowUserId == none
  | some u => rowUserId == some u

/-- Query `DrizzleWorkOrderRepository.findByWorkOrderNumbers` over the store. -/
def findByWorkOrderNumbers (store : List WorkOrder) (userId : Option String)
    (numbers : List String) : List WorkOrder :=
  if numbers.length == 0 then []
  else store.filter fun wo =>
    userIdMatches wo.userId userId && numbers.contains wo.workOrderNumber

/-- Row constructed by `saveMany` for one input.  The generated `id` /
`createdAt` (`crypto.randomUUID()`, `now`) are modelled as constants: no
claim observes them, and duplicate detection is keyed on
`workOrderNumber` alone. -/
def workOrderOfInput (input : WorkOrderInput) : WorkOrder :=
  { id := input.id.getD ""
    userId := input.userId
    timestampExtracted := input.timestampExtracted
    workOrderNumber := input.workOrderNumber
    customerName := input.customerName
    vendorName := input.vendorName
    serviceAddress := input.serviceAddress
    jobType := input.jobType
    jobDescription := input.jobDescription
    scheduledDate := input.scheduledDate
    amount := input.amount
    currency := input.currency
    notes := input.notes
    priority := input.priority
    calendarEventLink := input.calendarEventLink
    workOrderPdfLink := input.workOrderPdfLink
    createdAt := input.createdAt.getD "" }

/-- Insert `saveMany`: insert all rows, returning the saved rows and the new
store. -/
def saveMany (store : List WorkOrder) (inputs : List WorkOrderInput) :
    List WorkOrder × List WorkOrder :=
  let saved := inputs.map workOrderOfInput
  (saved, store ++ saved)

/-! ### Processing Orchestrator (`processSingleEmailMessage`) -/

/-- Type `ProcessEmailResult` from `src/lib/workOrders/processing.ts`. -/
structure ProcessEmailResult where
  email : EmailMessage
  createdWorkOrders : List WorkOrder
  skippedAsDuplicate : Bool
  duplicateWorkOrderNumbers : List String
deriving Repr, DecidableEq

/-- Write `emailMessageRepo.updateStatus`, modelled as the effect on the row. -/
def updateStatus (email : EmailMessage) (status : String) : EmailMessage :=
  { email with processingStatus := status }

/-- Step 3 of the orchestrator: attach the tenant to a candidate
(`{ ...w, userId }`, overwriting anything present). -/
def attachUserId (w : WorkOrderInputNoUser) (userId : Option String) : WorkOrderInput :=
  { toWorkOrderInputNoUser := w, userId := userId }

/-- Step 2 of the orchestrator: the candidate list.  `aiResult` is the
outcome of `aiParseWorkOrdersFromEmail` (the thrown-exception path is
caught and behaves like `null`, i.e. `none`): a non-empty AI list is used
as-is, otherwise the rule-based extractor runs. -/
def computeCandidateInputs (email : EmailMessage)
    (aiResult : Option (List WorkOrderInputNoUser)) : List WorkOrderInputNoUser :=
  match aiResult with
  | some l => if l.length > 0 then l else buildWorkOrderInputsFromEmail email
  | none => buildWorkOrderInputsFromEmail email

/-- Orchestrator `processSingleEmailMessage` from `src/lib/workOrders/processing.ts`.
The email is passed directly (the `getById` miss returns `null` before any
of the modelled behavior); the store is threaded explicitly; `aiResult`
stands for the AI call's outcome.  Returns the `ProcessEmailResult` and
the store after the `saveMany` write. -/
def processSingleEmailMessage (email : EmailMessage)
    (aiResult : Option (List WorkOrderInputNoUser)) (userId : Option String)
    (store : List WorkOrder) : ProcessEmailResult × List WorkOrder :=
  let candidateInputs := computeCandidateInputs email aiResult
  if candidateInputs.length == 0 then
    ({ email := updateStatus email "processed"
       createdWorkOrders := []
       skippedAsDuplicate := false
       duplicateWorkOrderNumbers := [] }, store)
  else
    let inputsWithUserId := candidateInputs.map fun w => attachUserId w userId
    let numbers := inputsWithUserId.map fun w => w.workOrderNumber
    let existing := findByWorkOrderNumbers store userId numbers
    let existingNumbers := existing.map fun w => w.workOrderNumber
    let newInputs := inputsWithUserId.filter fun w =>
      !(existingNumbers.contains w.workOrderNumber)
    let duplicateNumbers := numbers.filter fun n => existingNumbers.contains n
    let createdStore :=
      if newInputs.length != 0 then saveMany store newInputs else ([], store)
    let created := createdStore.1
    let skippedAsDuplicate := created.length == 0 && duplicateNumbers.length != 0
    let newStatus := if skippedAsDuplicate then "skipped_duplicate" else "processed"
    ({ email := updateStatus email newStatus
       createdWorkOrders := created
       skippedAsDuplicate := skippedAsDuplicate
       duplicateWorkOrderNumbers := duplicateNumbers }, createdStore.2)

/-- Specification vocabulary: `n` is already persisted for the tenant —
some stored row matches the tenant scope and carries this number. -/
def persistedForTenant (store : List WorkOrder) (userId : Option String)
    (n : String) : Bool :=
  store.any fun wo => userIdMatches wo.userId userId && wo.workOrderNumber == n

/-! ### Amount sanitization

`sanitizeAmount` in `src/lib/workOrders/mappers.ts` and the local
`sanitizeAmountString` in `parseAiResponse` have the identical body:
strip everything except digits and `.`, reject empty / `"."`, then
`parseFloat(...).toFixed(2)`.  After the strip the string holds only
digits and dots, so `parseFloat` reads `digits* ('.' digits*)?` and is
`NaN` exactly when no digit is read; that restricted reader and a decimal
`toFixed(2)` (exact for the magnitudes the pipeline sees) are modelled
below. -/

/-- Strip step `amount.replace(/[^0-9.]/g, '')`. -/
def stripNonAmountChars (s : String) : String :=
  String.mk (s.data.filter fun c => c.isDigit || c == '.')

/-- JS `parseFloat` restricted to strings of digits and dots: the leading
`digits* ('.' digits*)?` prefix as (integer digits, fraction digits);
`none` for `NaN` (no digit read). -/
def parseFloatDigitsDots (cs : List Char) : Option (List Char × List Char) :=
  let intPart := cs.takeWhile Char.isDigit
  match cs.drop intPart.length with
  | '.' :: rest2 =>
    let fracPart := rest2.takeWhile Char.isDigit
    if intPart.isEmpty && fracPart.isEmpty then none else some (intPart, fracPart)
  | _ => if intPart.isEmpty then none else some (intPart, [])

/-- Numeric value of a digit string. -/
def digitsToNat (l : List Char) : Nat :=
  l.foldl (fun acc c => acc * 10 + (c.toNat - '0'.toNat)) 0

/-- Render `m < 100` with two digits. -/
def pad2 (m : Nat) : String :=
  if m < 10 then "0" ++ toString m else toString m

/-- Rendering `Number.prototype.toFixed(2)` on the parsed decimal
`intPart.fracPart`: round half-up at the third fraction digit. -/
def toFixed2 (intPart fracPart : List Char) : String :=
  let d1 := digitsToNat (fracPart.take 1 ++ List.replicate (1 - fracPart.length) '0')
  let d2 := digitsToNat ((fracPart.drop 1).take 1 ++
    List.replicate (1 - (fracPart.drop 1).length) '0')
  let d3 := digitsToNat ((fracPart.drop 2).take 1 ++
    List.replicate (1 - (fracPart.drop 2).length) '0')
  let base := digitsToNat intPart * 100 + d1 * 10 + d2
  let n := if 5 ≤ d3 then base + 1 else base
  toString (n / 100) ++ "." ++ pad2 (n % 100)

/-- Sanitizer `sanitizeAmount` from `src/lib/workOrders/mappers.ts`. -/
def sanitizeAmount (amount : Option String) : Option String :=
  match amount with
  | none => none
  | some a =>
    if a == "" then none
    else
      let sanitized := stripNonAmountChars a
      if sanitized == "" || sanitized == "." then none
      else
        match parseFloatDigitsDots sanitized.data with
        | none => none
        | some (ip, fp) => some (toFixed2 ip fp)

/-- The local `sanitizeAmountString` helper of `parseAiResponse`
(textually identical body to `sanitizeAmount`). -/
def sanitizeAmountString (amountStr : Option String) : Option String :=
  match amountStr with
  | none => none
  | some a =>
    if a == "" then none
    else
      let sanitized := stripNonAmountChars a
      if sanitized == "" || sanitized == "." then none
      else
        match parseFloatDigitsDots sanitized.data with
        | none => none
        | some (ip, fp) => some (toFixed2 ip fp)

/-! ### AI Extractor (`aiParseWorkOrdersFromEmail`, `parseAiResponse`) -/

/-- The `AiWorkOrder` shape the code casts each element of the model's
`workOrders` array to: all fields strings, `""` meaning "missing". -/
structure AiWorkOrder where
  work_order_number : String := ""
  customer_name : String := ""
  vendor_name : String := ""
  service_address : String := ""
  job_type : String := ""
  job_description : String := ""
  scheduled_date : String := ""
  priority : String := ""
  amount : String := ""
  currency : String := ""
  nte_amount : String := ""
  service_category : String := ""
  facility_id : String := ""
  notes : String := ""
deriving Repr, DecidableEq

/-- Outcome of `JSON.parse` + the top-level shape check on the model's
reply text (after stripping an optional markdown code fence):
`malformed` = `JSON.parse` threw; `missingWorkOrders` = it parsed but
`!parsed.workOrders || !Array.isArray(parsed.workOrders)`. -/
inductive AiResponseJson where
  | malformed : AiResponseJson
  | missingWorkOrders : AiResponseJson
  | workOrders : List AiWorkOrder → AiResponseJson
deriving Repr, DecidableEq

/-- Body of the `parsed.workOrders.map((wo) => ...)` callback in
`parseAiResponse`: amount via `wo.amount || wo.nte_amount` sanitized,
notes combined with the `NTE:` tag, empty strings mapped to `null`, the
work-order number defaulted to `UNKNOWN-` + the first 8 characters of the
email id. -/
def mapAiWorkOrder (email : EmailMessage) (wo : AiWorkOrder) : WorkOrderInputNoUser :=
  let amount := sanitizeAmountString (some (jsOrStr wo.amount wo.nte_amount))
  -- `[wo.notes, wo.nte_amount ? `NTE: ${...}` : null].filter(Boolean).join(" | ")`
  let notes :=
    if wo.notes != "" && wo.nte_amount != "" then
      wo.notes ++ " | " ++ ("NTE: " ++ wo.nte_amount)
    else if wo.notes != "" then wo.notes
    else if wo.nte_amount != "" then "NTE: " ++ wo.nte_amount
    else ""
  { workOrderNumber :=
      if wo.work_order_number == "" then "UNKNOWN-" ++ sliceTo email.id 8
      else wo.work_order_number
    timestampExtracted := email.receivedAt
    scheduledDate := some (jsOrStr wo.scheduled_date email.receivedAt)
    serviceAddress := jsStrOrNull wo.service_address
    jobType := jsStrOrNull wo.job_type
    customerName := jsStrOrNull wo.customer_name
    vendorName := jsStrOrNull wo.vendor_name
    jobDescription := jsStrOrNull wo.job_description
    amount := amount
    currency := some (jsOrStr wo.currency "USD")
    notes := jsStrOrNull notes
    priority := jsStrOrNull wo.priority
    calendarEventLink := none
    workOrderPdfLink := none }

/-- Parser `parseAiResponse`: `null` on parse failure or a bad `workOrders`
field, `[]` on an empty array, otherwise the mapped records. -/
def parseAiResponse (response : AiResponseJson) (email : EmailMessage) :
    Option (List WorkOrderInputNoUser) :=
  match response with
  | .malformed => none
  | .missingWorkOrders => none
  | .workOrders l =>
    if l.length == 0 then some []
    else some (l.map (mapAiWorkOrder email))

/-- Outcome of the OpenAI call inside `aiParseWorkOrdersFromEmail`:
`infraError` = the client threw (caught by the surrounding `try`),
`emptyResponse` = `response.choices[0]?.message?.content` was missing or
empty (falsy), otherwise the reply's parsed shape. -/
inductive AiCallOutcome where
  | infraError : AiCallOutcome
  | emptyResponse : AiCallOutcome
  | reply : AiResponseJson → AiCallOutcome
deriving Repr, DecidableEq

/-- Extractor `aiParseWorkOrdersFromEmail`.  `enabled` models `isAiParsingEnabled()`
(presence of the API key); `getText` models `getPdfTextFromAttachment`,
which never throws and reports a failed load/parse with an
`UNAVAILABLE_PDF_CONTENT:`-prefixed placeholder; `call` models the
network call.  The per-attachment text is truncated to the
`MAX_CHARS_PER_PDF = 8000` budget. -/
def aiParseWorkOrdersFromEmail (enabled : Bool)
    (getText : EmailAttachment → String) (call : AiCallOutcome)
    (email : EmailMessage) : Option (List WorkOrderInputNoUser) :=
  if !enabled then none
  else
    let pdfAttachments := email.attachments.filter isPdfAttachment
    if pdfAttachments.length == 0 then none
    else
      let pdfTexts := pdfAttachments.filterMap fun att =>
        let text := getText att
        if jsStartsWith text "UNAVAILABLE_PDF_CONTENT:" then none
        else some (att.filename, sliceTo text 8000)
      if pdfTexts.length == 0 then none
      else
        match call with
        | .infraError => none
        | .emptyResponse => none
        | .reply r => parseAiResponse r email

/-! ### PDF Text Extractor (`extractTextFromPdfBuffer`)

The two engines are external libraries; their outcomes on the given
buffer are the inputs.  `pdfParseResult` is `pdf-parse`'s `data.text`
(with `data.text || ""` collapsed into the carried string) or a thrown
error; `pdfjsResult` is the pdfjs-dist document as pages of text items
(`item.str` possibly absent) or a thrown error. -/

/-- Outcomes of the two engines on one buffer. -/
structure PdfEngines where
  pdfParseResult : Except String String
  pdfjsResult : Except String (List (List (Option String)))
deriving Repr

/-- One page: `content.items.map(item => item.str ?? "").join(" ")`. -/
def pdfPageText (items : List (Option String)) : String :=
  String.intercalate " " (items.map fun it => it.getD "")

/-- The fallback engine's accumulated text:
`fullText += pageText + "\n\n"` over every page in order. -/
def pdfjsFullText (pages : List (List (Option String))) : String :=
  String.join (pages.map fun pg => pdfPageText pg ++ "\n\n")

/-- Extractor `extractTextFromPdfBuffer`: primary engine's trimmed text when
non-empty; otherwise the page-by-page fallback, whose empty trimmed
result raises `EMPTY_TEXT_FROM_PDF`; any fallback failure is wrapped in
the combined error message. -/
def extractTextFromPdfBuffer (engines : PdfEngines) : Except String String :=
  let primary : Option String :=
    match engines.pdfParseResult with
    | .ok t => let text := jsTrim t; if text != "" then some text else none
    | .error _ => none
  match primary with
  | some text => .ok text
  | none =>
    match engines.pdfjsResult with
    | .error e => .error ("PDF parsing failed (tried pdf-parse and pdfjs-dist): " ++ e)
    | .ok pages =>
      let trimmed := jsTrim (pdfjsFullText pages)
      if trimmed == "" then
        .error "PDF parsing failed (tried pdf-parse and pdfjs-dist): EMPTY_TEXT_FROM_PDF"
      else .ok trimmed

/-- Specification vocabulary for the extractor cascade: the primary
whole-document engine failed or produced only whitespace. -/
def primaryFailsOrEmpty (engines : PdfEngines) : Prop :=
  (∃ err, engines.pdfParseResult = .error err) ∨
  (∃ t, engines.pdfParseResult = .ok t ∧ jsTrim t = "")

/-- Specification vocabulary: the fallback page-by-page engine failed or
produced only whitespace. -/
def fallbackFailsOrEmpty (engines : PdfEngines) : Prop :=
  (∃ err, engines.pdfjsResult = .error err) ∨
  (∃ pages, engines.pdfjsResult = .ok pages ∧ jsTrim (pdfjsFullText pages) = "")

/-! ### Concrete sample inputs used by witnesses and counterexamples -/

/-- Sample email with zero attachments (end-to-end scenario 1). -/
def sampleEmailNoAttachments : EmailMessage :=
  { id := "mail0001-aaaa", provider := "generic", externalId := none,
    fromAddress := "sender@example.com", toAddress := "inbox@example.com",
    subject := "no digits here",
    receivedAt := "2024-01-01T00:00:00.000Z", processingStatus := "new",
    hasPdfAttachments := false, pdfAttachmentCount := 0, attachments := [],
    duplicateOfWorkOrderId := none,
    createdAt := "2024-01-01T00:00:01.000Z", updatedAt := "2024-01-01T00:00:01.000Z" }

/-- Sample PDF attachment named `1898060.pdf` (end-to-end scenario 2). -/
def samplePdfAttachment : EmailAttachment :=
  { id := "att1", filename := "1898060.pdf", mimeType := "application/pdf",
    sizeBytes := some 1024, storageLocation := some "/uploads/1898060.pdf" }

/-- Sample email with exactly one PDF attachment. -/
def sampleEmailOnePdf : EmailMessage :=
  { sampleEmailNoAttachments with
      id := "mail0002-bbbb"
      attachments := [samplePdfAttachment]
      hasPdfAttachments := true
      pdfAttachmentCount := 1 }

/-- Same email as `sampleEmailOnePdf` but with a different received
timestamp (used to show the AI placeholder ignores the timestamp). -/
def sampleEmailOnePdfLater : EmailMessage :=
  { sampleEmailOnePdf with receivedAt := "2030-06-15T12:34:56.000Z" }

/-- A persisted row for tenant `u1` carrying number `1898060`. -/
def sampleRow1898060 : WorkOrder :=
  { id := "w1", userId := some "u1", timestampExtracted := "t0",
    workOrderNumber := "1898060", createdAt := "c0" }

/-- A persisted row for tenant `other` carrying number `555555`. -/
def sampleRowOtherTenant : WorkOrder :=
  { id := "w2", userId := some "other", timestampExtracted := "t0",
    workOrderNumber := "555555", createdAt := "c0" }

/-- A model work order whose fields are all empty strings. -/
def sampleAiWoEmpty : AiWorkOrder := {}

/-- A model work order with an empty amount but a present NTE amount. -/
def sampleAiWoNte : AiWorkOrder :=
  { work_order_number := "555555", amount := "", nte_amount := "$400.00",
    notes := "call before arrival" }

/-- Two AI candidates sharing the same work-order number. -/
def sampleDupCandidate : WorkOrderInputNoUser :=
  { timestampExtracted := "t1", workOrderNumber := "777777" }

/-- Sample engine outcomes: primary engine throws, page-by-page fallback
succeeds with two pages. -/
def samplePdfEngines : PdfEngines :=
  { pdfParseResult := .error "primary failed",
    pdfjsResult := .ok [[some "hello"], [some "world", none]] }

/-- Default values used with `List.getD` in theorem statements. -/
def defaultAttachment : EmailAttachment :=
  { id := "", filename := "", mimeType := "", sizeBytes := none, storageLocation := none }

/-- Default candidate record used with `List.getD` in theorem statements. -/
def defaultInputNoUser : WorkOrderInputNoUser :=
  { timestampExtracted := "", workOrderNumber := "" }

/-! ## Helper lemmas -/

theorem listStartsWith_self (l : List Char) : listStartsWith l l = true := by
  induction l with
  | nil => rfl
  | cons c rest ih => simp [listStartsWith, ih]

theorem listHasSub_of_startsWith (tail needle : List Char)
    (h : listStartsWith tail needle = true) :
    ∀ pre : List Char, listHasSub (pre ++ tail) needle = true := by
  intro pre
  induction pre with
  | nil =>
    cases tail with
    | nil =>
      cases needle with
      | nil => rfl
      | cons n ns => simp [listStartsWith] at h
    | cons c rest => simp [listHasSub, h]
  | cons p ps ih => simp [listHasSub, ih]

theorem mk_ne_empty_of_ne_nil (l : List Char) (h : l ≠ []) : String.mk l ≠ "" := by
  intro hEq
  exact h (congrArg String.data hEq)

theorem string_append_data (a b : String) : (a ++ b).data = a.data ++ b.data :=
  String.data_append a b

theorem append_ne_empty_left (a b : String) (h : a.data ≠ []) : a ++ b ≠ "" := by
  intro hEq
  have hdata : (a ++ b).data = [] := congrArg String.data hEq
  rw [string_append_data] at hdata
  exact h (List.append_eq_nil.mp hdata).1

/-- When the input has no digit at all, everything surviving the strip is
a dot, and `parseFloat` yields `NaN`, so sanitization yields `null`. -/
theorem sanitize_none_of_no_digits (s : String) (h : ∀ c ∈ s.data, c.isDigit = false) :
    sanitizeAmount (some s) = none := by
  have hdots : ∀ c ∈ s.data.filter (fun c => c.isDigit || c == '.'), c = '.' := by
    intro c hc
    have hm := List.mem_filter.mp hc
    have hdig := h c hm.1
    have : (c == '.') = true := by
      rcases Bool.or_eq_true_iff.mp hm.2 with h1 | h2
      · rw [hdig] at h1; exact absurd h1 (by simp)
      · exact h2
    exact beq_iff_eq.mp this
  by_cases hs : s = ""
  · simp [sanitizeAmount, hs]
  · rcases hcase : s.data.filter (fun c => c.isDigit || c == '.') with _ | ⟨c1, rest1⟩
    · simp [sanitizeAmount, hs, stripNonAmountChars, hcase]
    · have hc1 : c1 = '.' := hdots c1 (by rw [hcase]; exact List.mem_cons_self _ _)
      rcases rest1 with _ | ⟨c2, rest2⟩
      · simp [sanitizeAmount, hs, stripNonAmountChars, hcase, hc1]
      · have hc2 : c2 = '.' :=
          hdots c2 (by rw [hcase]; exact List.mem_cons_of_mem _ (List.mem_cons_self _ _))
        simp [sanitizeAmount, hs, stripNonAmountChars, hcase, hc1, hc2,
          parseFloatDigitsDots, List.takeWhile]

/-- When the model's primary amount is empty but its NTE amount is
present, the mapped amount is the sanitized NTE value and the notes field
records `NTE: <value>`. -/
theorem nte_used (email : EmailMessage) (wo : AiWorkOrder)
    (hamt : wo.amount = "") (hnte : wo.nte_amount ≠ "") :
    (mapAiWorkOrder email wo).amount = sanitizeAmountString (some wo.nte_amount) ∧
    jsIncludes ((mapAiWorkOrder email wo).notes.getD "") ("NTE: " ++ wo.nte_amount) = true := by
  have hnteb : (wo.nte_amount == "") = false := by simp [hnte]
  constructor
  · simp [mapAiWorkOrder, jsOrStr, hamt]
  · by_cases hnotes : wo.notes = ""
    · have hv : (mapAiWorkOrder email wo).notes = some ("NTE: " ++ wo.nte_amount) := by
        simp [mapAiWorkOrder, jsStrOrNull, hnotes, hnteb,
          append_ne_empty_left "NTE: " wo.nte_amount (by decide)]
        exact ⟨hnte, fun hx => absurd hx hnte⟩
      rw [hv]
      simp only [Option.getD_some]
      unfold jsIncludes
      have := listHasSub_of_startsWith ("NTE: " ++ wo.nte_amount).data
        ("NTE: " ++ wo.nte_amount).data (listStartsWith_self _) []
      simpa using this
    · have hnb : (wo.notes == "") = false := by simp [hnotes]
      have hval : (mapAiWorkOrder email wo).notes =
          some (wo.notes ++ " | " ++ ("NTE: " ++ wo.nte_amount)) := by
        have hne : wo.notes ++ " | " ++ ("NTE: " ++ wo.nte_amount) ≠ "" := by
          apply append_ne_empty_left
          rw [string_append_data]
          intro hx
          exact hnotes (congrArg String.mk (List.append_eq_nil.mp hx).1)
        simp [mapAiWorkOrder, jsStrOrNull, hnb, hnteb, hne, hnotes, hnte]
      rw [hval]
      simp only [Option.getD_some]
      unfold jsIncludes
      rw [string_append_data]
      exact listHasSub_of_startsWith _ _ (listStartsWith_self _) _

/-! ## Claim theorems -/

/-- C7: amount sanitization strips every character except digits and the
decimal point (`"$1,234.56 NTE"` ↦ `"1234.56"`), yields `null` for `""`
and `"N/A"` and in general whenever no digit survives; and when the
primary amount is empty but an NTE amount is present, the NTE value is
sanitized into the amount and recorded in the notes as `NTE: <value>`. -/
theorem c7_amount_sanitization :
    sanitizeAmount (some "$1,234.56 NTE") = some "1234.56"
    ∧ sanitizeAmount (some "") = none
    ∧ sanitizeAmount (some "N/A") = none
    ∧ (∀ s : String, (∀ c ∈ s.data, c.isDigit = false) → sanitizeAmount (some s) = none)
    ∧ (∀ (email : EmailMessage) (wo : AiWorkOrder),
        wo.amount = "" → wo.nte_amount ≠ "" →
        (mapAiWorkOrder email wo).amount = sanitizeAmountString (some wo.nte_amount)
        ∧ jsIncludes ((mapAiWorkOrder email wo).notes.getD "")
            ("NTE: " ++ wo.nte_amount) = true) :=
  ⟨by decide, by decide, by decide, sanitize_none_of_no_digits, nte_used⟩

/-- Witness for C7 at a concrete model work order with empty amount and
NTE `$400.00`. -/
theorem c7_amount_sanitization_witness :
    (mapAiWorkOrder sampleEmailOnePdf sampleAiWoNte).amount
      = sanitizeAmountString (some "$400.00")
    ∧ jsIncludes ((mapAiWorkOrder sampleEmailOnePdf sampleAiWoNte).notes.getD "")
        ("NTE: " ++ "$400.00") = true :=
  c7_amount_sanitization.2.2.2.2 sampleEmailOnePdf sampleAiWoNte (by decide) (by decide)

/-- C8: the extractor returns the primary engine's (trimmed) text
immediately when it is non-empty after trimming; otherwise it returns the
fallback engine's page-joined text (items joined with spaces, pages with
a blank line, output trimmed); and it fails exactly when both engines
fail or yield empty trimmed text. -/
theorem c8_pdf_extraction_cascade (engines : PdfEngines) :
    (∀ t, engines.pdfParseResult = Except.ok t → jsTrim t ≠ "" →
      extractTextFromPdfBuffer engines = Except.ok (jsTrim t))
    ∧ (∀ pages, engines.pdfjsResult = Except.ok pages → primaryFailsOrEmpty engines →
        jsTrim (pdfjsFullText pages) ≠ "" →
        extractTextFromPdfBuffer engines = Except.ok (jsTrim (pdfjsFullText pages)))
    ∧ ((∃ msg, extractTextFromPdfBuffer engines = Except.error msg) ↔
        (primaryFailsOrEmpty engines ∧ fallbackFailsOrEmpty engines)) := by
  obtain ⟨pp, pj⟩ := engines
  cases pp with
  | ok t =>
    by_cases ht : jsTrim t = ""
    · cases pj with
      | ok pages =>
        by_cases hp : jsTrim (pdfjsFullText pages) = "" <;>
          simp [extractTextFromPdfBuffer, primaryFailsOrEmpty, fallbackFailsOrEmpty,
            ht, hp]
      | error e2 =>
        simp [extractTextFromPdfBuffer, primaryFailsOrEmpty, fallbackFailsOrEmpty, ht]
    · simp [extractTextFromPdfBuffer, primaryFailsOrEmpty, fallbackFailsOrEmpty, ht]
  | error e =>
    cases pj with
    | ok pages =>
      by_cases hp : jsTrim (pdfjsFullText pages) = "" <;>
        simp [extractTextFromPdfBuffer, primaryFailsOrEmpty, fallbackFailsOrEmpty, hp]
    | error e2 =>
      simp [extractTextFromPdfBuffer, primaryFailsOrEmpty, fallbackFailsOrEmpty]

/-- Witness for C8: failed primary engine, two-page fallback. -/
theorem c8_pdf_extraction_cascade_witness :
    extractTextFromPdfBuffer samplePdfEngines = Except.ok "hello\n\nworld" :=
  (c8_pdf_extraction_cascade samplePdfEngines).2.1
    [[some "hello"], [some "world", none]] rfl
    (Or.inl ⟨"primary failed", rfl⟩) (by decide)

/-- C4: the AI extractor returns `null` (not an exception — it is a total
function) when AI is disabled, when there are no PDF attachments, when
every PDF fails text extraction, and when the reply's `workOrders` field
is missing or not an array (incl. unparseable JSON); it returns `[]` when
`workOrders` parses to an empty array; and whenever it yields `null` or
an empty list the orchestrator's candidate list is the rule-based
extractor's output. -/
theorem c4_ai_null_paths_and_fallback :
    (∀ getText call email,
      aiParseWorkOrdersFromEmail false getText call email = none)
    ∧ (∀ enabled getText call email,
        email.attachments.filter isPdfAttachment = [] →
        aiParseWorkOrdersFromEmail enabled getText call email = none)
    ∧ (∀ enabled getText call email,
        (∀ att ∈ email.attachments.filter isPdfAttachment,
          jsStartsWith (getText att) "UNAVAILABLE_PDF_CONTENT:" = true) →
        aiParseWorkOrdersFromEmail enabled getText call email = none)
    ∧ (∀ enabled getText email,
        aiParseWorkOrdersFromEmail enabled getText
          (AiCallOutcome.reply AiResponseJson.malformed) email = none
        ∧ aiParseWorkOrdersFromEmail enabled getText
            (AiCallOutcome.reply AiResponseJson.missingWorkOrders) email = none)
    ∧ (∀ getText email,
        (∃ att ∈ email.attachments.filter isPdfAttachment,
          jsStartsWith (getText att) "UNAVAILABLE_PDF_CONTENT:" = false) →
        aiParseWorkOrdersFromEmail true getText
          (AiCallOutcome.reply (AiResponseJson.workOrders [])) email = some [])
    ∧ (∀ email ai, (ai = none ∨ ai = some ([] : List WorkOrderInputNoUser)) →
        computeCandidateInputs email ai = buildWorkOrderInputsFromEmail email) := by
  refine ⟨fun getText call email => rfl, ?_, ?_, ?_, ?_, ?_⟩
  · intro enabled getText call email h
    cases enabled
    · rfl
    · simp [aiParseWorkOrdersFromEmail, h]
  · intro enabled getText call email h
    cases enabled
    · rfl
    · have htexts : (email.attachments.filter isPdfAttachment).filterMap (fun att =>
        if jsStartsWith (getText att) "UNAVAILABLE_PDF_CONTENT:" then none
        else some (att.filename, sliceTo (getText att) 8000)) = [] := by
        apply List.filterMap_eq_nil_iff.mpr
        intro att hatt
        simp [h att hatt]
      by_cases hlen : (email.attachments.filter isPdfAttachment).length = 0
      · simp [aiParseWorkOrdersFromEmail, hlen]
      · simp [aiParseWorkOrdersFromEmail, hlen, htexts]
  · intro enabled getText email
    cases enabled
    · exact ⟨rfl, rfl⟩
    · constructor <;>
      · by_cases hlen : (email.attachments.filter isPdfAttachment).length = 0
        · simp [aiParseWorkOrdersFromEmail, hlen]
        · by_cases htex : ((email.attachments.filter isPdfAttachment).filterMap (fun att =>
            if jsStartsWith (getText att) "UNAVAILABLE_PDF_CONTENT:" then none
            else some (att.filename, sliceTo (getText att) 8000))).length = 0
          · simp [aiParseWorkOrdersFromEmail, hlen, htex]
          · simp [aiParseWorkOrdersFromEmail, hlen, htex, parseAiResponse]
  · rintro getText email ⟨att, hmem, hfalse⟩
    have hpdfs : (email.attachments.filter isPdfAttachment).length ≠ 0 := by
      intro h
      rw [List.length_eq_zero] at h
      rw [h] at hmem
      exact List.not_mem_nil att hmem
    have hmemTexts : (att.filename, sliceTo (getText att) 8000) ∈
        (email.attachments.filter isPdfAttachment).filterMap (fun att =>
          if jsStartsWith (getText att) "UNAVAILABLE_PDF_CONTENT:" then none
          else some (att.filename, sliceTo (getText att) 8000)) :=
      List.mem_filterMap.mpr ⟨att, hmem, by simp [hfalse]⟩
    have htexts : ((email.attachments.filter isPdfAttachment).filterMap (fun att =>
        if jsStartsWith (getText att) "UNAVAILABLE_PDF_CONTENT:" then none
        else some (att.filename, sliceTo (getText att) 8000))).length ≠ 0 := by
      intro h
      rw [List.length_eq_zero] at h
      rw [h] at hmemTexts
      exact List.not_mem_nil _ hmemTexts
    simp [aiParseWorkOrdersFromEmail, hpdfs, htexts, parseAiResponse]
  · rintro email ai (rfl | rfl) <;> simp [computeCandidateInputs]

/-- Witness for C4: one readable PDF, model replies with an empty
`workOrders` array — the extractor reports `some []`. -/
theorem c4_ai_null_paths_and_fallback_witness :
    aiParseWorkOrdersFromEmail true (fun _ => "extracted pdf text")
      (AiCallOutcome.reply (AiResponseJson.workOrders [])) sampleEmailOnePdf = some [] :=
  c4_ai_null_paths_and_fallback.2.2.2.2.1 (fun _ => "extracted pdf text")
    sampleEmailOnePdf ⟨samplePdfAttachment, by decide, by decide⟩

/-- The mapped work-order number is never the empty string (either the
model's non-empty value or the `UNKNOWN-` placeholder). -/
theorem mapAi_number_ne_empty (email : EmailMessage) (wo : AiWorkOrder) :
    (mapAiWorkOrder email wo).workOrderNumber ≠ "" := by
  by_cases h : wo.work_order_number = ""
  · have hv : (mapAiWorkOrder email wo).workOrderNumber
        = "UNKNOWN-" ++ sliceTo email.id 8 := by simp [mapAiWorkOrder, h]
    rw [hv]
    exact append_ne_empty_left "UNKNOWN-" _ (by decide)
  · have hv : (mapAiWorkOrder email wo).workOrderNumber = wo.work_order_number := by
      simp [mapAiWorkOrder, h]
    rw [hv]
    exact h

/-- C9 counterexample: the cited mapper's placeholder for an
empty `work_order_number` is NOT timestamp-based.  Two emails differing
only in their received timestamp produce the same placeholder, which is
`"UNKNOWN-"` followed by the first 8 characters of the email id. -/
theorem c9_placeholder_counterexample :
    sampleEmailOnePdf.receivedAt ≠ sampleEmailOnePdfLater.receivedAt
    ∧ (mapAiWorkOrder sampleEmailOnePdf sampleAiWoEmpty).workOrderNumber
        = (mapAiWorkOrder sampleEmailOnePdfLater sampleAiWoEmpty).workOrderNumber
    ∧ (mapAiWorkOrder sampleEmailOnePdf sampleAiWoEmpty).workOrderNumber
        = "UNKNOWN-" ++ sliceTo sampleEmailOnePdf.id 8
    ∧ (mapAiWorkOrder sampleEmailOnePdf sampleAiWoEmpty).workOrderNumber
        = "UNKNOWN-mail0002" := by decide

/-- C9 (amended): for every work-order object in the model's parsed reply
whose `work_order_number` is the empty string, the mapped record's
`workOrderNumber` is defaulted to the placeholder `"UNKNOWN-"` + the
first 8 characters of the source email's id (not a timestamp-based one),
so the mapped `workOrderNumber` is always non-empty and the record is
never silently dropped. -/
theorem c9_placeholder_amended : ∀ (email : EmailMessage) (wo : AiWorkOrder),
    (wo.work_order_number = "" →
      (mapAiWorkOrder email wo).workOrderNumber = "UNKNOWN-" ++ sliceTo email.id 8)
    ∧ (mapAiWorkOrder email wo).workOrderNumber ≠ ""
    ∧ (∀ l res, parseAiResponse (AiResponseJson.workOrders l) email = some res →
        ∀ r ∈ res, r.workOrderNumber ≠ "") := by
  intro email wo
  refine ⟨fun h => by simp [mapAiWorkOrder, h], mapAi_number_ne_empty email wo, ?_⟩
  intro l res hres r hr
  by_cases hlen : l.length = 0
  · simp [parseAiResponse, hlen] at hres
    rw [hres] at hr
    exact absurd hr (List.not_mem_nil r)
  · simp [parseAiResponse, hlen] at hres
    rw [← hres] at hr
    obtain ⟨wo2, _, hmap⟩ := List.mem_map.mp hr
    rw [← hmap]
    exact mapAi_number_ne_empty email wo2

/-- Witness for the amended C9 at a concrete empty-numbered model reply. -/
theorem c9_placeholder_amended_witness :
    (mapAiWorkOrder sampleEmailNoAttachments sampleAiWoEmpty).workOrderNumber
      = "UNKNOWN-" ++ sliceTo sampleEmailNoAttachments.id 8 :=
  (c9_placeholder_amended sampleEmailNoAttachments sampleAiWoEmpty).1 (by decide)

/-- No digit character is `'W'` or `'w'`. -/
theorem digit_beq_false (c x : Char) (hc : c.isDigit = true) (hx : x.isDigit = false) :
    (c == x) = false := by
  apply beq_eq_false_iff_ne.mpr
  intro h
  rw [h, hx] at hc
  exact Bool.false_ne_true hc

/-- The `WO` pattern never matches inside a pure digit string. -/
theorem findWOMatch_digits (l : List Char) (h : ∀ c ∈ l, c.isDigit = true) :
    findWOMatch l = none := by
  induction l with
  | nil => rfl
  | cons c rest ih =>
    have hc := h c (List.mem_cons_self _ _)
    have hrest : ∀ x ∈ rest, x.isDigit = true := fun x hx => h x (List.mem_cons_of_mem _ hx)
    have hmatch : matchWOAt (c :: rest) = none := by
      cases rest with
      | nil => rfl
      | cons c2 rest2 =>
        simp [matchWOAt, digit_beq_false c 'W' hc (by decide),
          digit_beq_false c 'w' hc (by decide)]
    simp [findWOMatch, hmatch, ih hrest]

theorem isWordChar_of_digit (c : Char) (h : c.isDigit = true) : isWordChar c = true := by
  simp [isWordChar, h]

/-- Inside a digit run there is no word boundary, so the standalone
digit-run pattern never matches there. -/
theorem findDigitRun_after_digit (l : List Char) (h : ∀ c ∈ l, c.isDigit = true)
    (p : Char) (hp : p.isDigit = true) : findDigitRun (some p) l = none := by
  induction l generalizing p with
  | nil => rfl
  | cons c rest ih =>
    have hc := h c (List.mem_cons_self _ _)
    have hrest : ∀ x ∈ rest, x.isDigit = true := fun x hx => h x (List.mem_cons_of_mem _ hx)
    have hmatch : matchDigitRunAt (some p) (c :: rest) = none := by
      simp [matchDigitRunAt, isWordChar_of_digit p hp]
    simp [findDigitRun, hmatch, ih hrest c hc]

/-- On a bare digit run the locator returns the whole run exactly when the
run's length is within 6–10, else nothing. -/
theorem extract_all_digits (ds : List Char) (hne : ds ≠ [])
    (h : ∀ c ∈ ds, c.isDigit = true) :
    extractWorkOrderNumberFromText (String.mk ds)
      = if 6 ≤ ds.length ∧ ds.length ≤ 10 then some (String.mk ds) else none := by
  have hWO : findWOMatch ds = none := findWOMatch_digits ds h
  obtain ⟨c, rest, rfl⟩ : ∃ c rest, ds = c :: rest := by
    cases ds with
    | nil => exact absurd rfl hne
    | cons c rest => exact ⟨c, rest, rfl⟩
  have htake : (c :: rest).takeWhile Char.isDigit = c :: rest := by
    rw [List.takeWhile_eq_self_iff]
    exact h
  have hdrop : (c :: rest).dropWhile Char.isDigit = [] := by
    rw [List.dropWhile_eq_nil_iff]
    exact h
  have hfall : extractWorkOrderNumberFromText (String.mk (c :: rest))
      = findDigitRun none (c :: rest) := by
    simp [extractWorkOrderNumberFromText, hWO]
  by_cases hcond : 6 ≤ (c :: rest).length ∧ (c :: rest).length ≤ 10
  · have hb : (decide (6 ≤ (c :: rest).length) && decide ((c :: rest).length ≤ 10)) = true := by
      simp only [Bool.and_eq_true, decide_eq_true_eq]
      exact hcond
    have hm : matchDigitRunAt none (c :: rest) = some (String.mk (c :: rest)) := by
      simp only [matchDigitRunAt, htake, hdrop, hb]
      simp
    rw [if_pos hcond, hfall]
    simp [findDigitRun, hm]
  · have hb : (decide (6 ≤ (c :: rest).length) && decide ((c :: rest).length ≤ 10)) = false := by
      by_cases hP : 6 ≤ (c :: rest).length
      · have hQ : ¬(c :: rest).length ≤ 10 := fun hq => hcond ⟨hP, hq⟩
        rw [decide_eq_false hQ, Bool.and_false]
      · rw [decide_eq_false hP, Bool.false_and]
    have hm : matchDigitRunAt none (c :: rest) = none := by
      simp only [matchDigitRunAt, htake, hb]
      simp
    have hrec : findDigitRun (some c) rest = none :=
      findDigitRun_after_digit rest (fun x hx => h x (List.mem_cons_of_mem _ hx))
        c (h c (List.mem_cons_self _ _))
    rw [if_neg hcond, hfall]
    simp [findDigitRun, hm, hrec]

/-- C5: the locator tries the case-insensitive `WO [#] digits{5,10}`
pattern first (its leftmost match wins over any other digit run), then
falls back to the first standalone 6–10 digit run, else `null`; on a bare
digit run it returns the run exactly when its length is 6–10, so a
9-digit run is returned while 4- and 12-digit runs give `null`. -/
theorem c5_locator_patterns :
    (∀ s d, findWOMatch s.data = some d →
      extractWorkOrderNumberFromText s = some d)
    ∧ (∀ s, findWOMatch s.data = none →
        extractWorkOrderNumberFromText s = findDigitRun none s.data)
    ∧ (∀ ds : List Char, ds ≠ [] → (∀ c ∈ ds, c.isDigit = true) →
        extractWorkOrderNumberFromText (String.mk ds)
          = if 6 ≤ ds.length ∧ ds.length ≤ 10 then some (String.mk ds) else none)
    ∧ extractWorkOrderNumberFromText "WO# 1910446" = some "1910446"
    ∧ extractWorkOrderNumberFromText "wo 12345 then 6789012345" = some "12345"
    ∧ extractWorkOrderNumberFromText "9876543 WO 12345" = some "12345"
    ∧ extractWorkOrderNumberFromText "ref 123 456789012 3456789" = some "456789012"
    ∧ extractWorkOrderNumberFromText "123456789" = some "123456789"
    ∧ extractWorkOrderNumberFromText "1234" = none
    ∧ extractWorkOrderNumberFromText "123456789012" = none := by
  refine ⟨?_, ?_, extract_all_digits, by decide, by decide, by decide, by decide,
    by decide, by decide, by decide⟩
  · intro s d h
    simp [extractWorkOrderNumberFromText, h]
  · intro s h
    simp [extractWorkOrderNumberFromText, h]

/-- Witness for C5 at a concrete `WO`-marked input. -/
theorem c5_locator_patterns_witness :
    extractWorkOrderNumberFromText "job WO#77777 done" = some "77777" :=
  c5_locator_patterns.1 "job WO#77777 done" "77777" (by decide)

theorem buildInputsAux_length (email : EmailMessage) :
    ∀ (l : List EmailAttachment) (j : Nat), (buildInputsAux email j l).length = l.length := by
  intro l
  induction l with
  | nil => intro j; rfl
  | cons a rest ih => intro j; simp [buildInputsAux, ih (j + 1)]

theorem buildInputsAux_getD (email : EmailMessage) :
    ∀ (l : List EmailAttachment) (j i : Nat), i < l.length →
      (buildInputsAux email j l).getD i defaultInputNoUser
        = mkRuleBasedInput email (l.getD i defaultAttachment) (j + i) := by
  intro l
  induction l with
  | nil => intro j i h; exact absurd h (by simp)
  | cons a rest ih =>
    intro j i h
    cases i with
    | zero => simp [buildInputsAux]
    | succ i =>
      have hi : i < rest.length := by simpa using Nat.lt_of_succ_lt_succ h
      simp only [buildInputsAux, List.getD_cons_succ]
      rw [ih (j + 1) i hi]
      congr 1
      omega

theorem buildInputsAux_mem (email : EmailMessage) :
    ∀ (l : List EmailAttachment) (j : Nat) (w : WorkOrderInputNoUser),
      w ∈ buildInputsAux email j l →
      w.timestampExtracted = email.receivedAt ∧ w.scheduledDate = some email.receivedAt := by
  intro l
  induction l with
  | nil => intro j w h; exact absurd h (List.not_mem_nil w)
  | cons a rest ih =>
    intro j w h
    rcases List.mem_cons.mp h with rfl | h2
    · exact ⟨rfl, rfl⟩
    · exact ih (j + 1) w h2

/-- C6: the rule-based extractor (a total function — it never throws)
returns exactly one record per attachment whose MIME type contains `pdf`
case-insensitively; each record's number comes from the locator on the
attachment filename, else the locator on the subject, else the
synthesized `UNKNOWN-<first 8 of email id>-<index>`; and every record's
`timestampExtracted` and `scheduledDate` equal the email's received
timestamp. -/
theorem c6_rule_based_extractor : ∀ email : EmailMessage,
    (buildWorkOrderInputsFromEmail email).length
      = (email.attachments.filter isPdfAttachment).length
    ∧ (∀ w ∈ buildWorkOrderInputsFromEmail email,
        w.timestampExtracted = email.receivedAt
        ∧ w.scheduledDate = some email.receivedAt)
    ∧ (∀ i, i < (email.attachments.filter isPdfAttachment).length →
        ((buildWorkOrderInputsFromEmail email).getD i defaultInputNoUser).workOrderNumber
          = match extractWorkOrderNumberFromText
              ((email.attachments.filter isPdfAttachment).getD i defaultAttachment).filename with
            | some n => n
            | none =>
              match extractWorkOrderNumberFromText email.subject with
              | some n => n
              | none => "UNKNOWN-" ++ sliceTo email.id 8 ++ "-" ++ toString i) := by
  intro email
  by_cases hlen : (email.attachments.filter isPdfAttachment).length = 0
  · refine ⟨?_, ?_, ?_⟩
    · simp [buildWorkOrderInputsFromEmail, hlen]
    · intro w hw
      simp [buildWorkOrderInputsFromEmail, hlen] at hw
    · intro i hi
      rw [hlen] at hi
      exact absurd hi (Nat.not_lt_zero i)
  · have hbuild : buildWorkOrderInputsFromEmail email
        = buildInputsAux email 0 (email.attachments.filter isPdfAttachment) := by
      simp [buildWorkOrderInputsFromEmail, hlen]
    refine ⟨?_, ?_, ?_⟩
    · rw [hbuild, buildInputsAux_length]
    · intro w hw
      rw [hbuild] at hw
      exact buildInputsAux_mem email _ 0 w hw
    · intro i hi
      rw [hbuild, buildInputsAux_getD email _ 0 i hi]
      simp only [Nat.zero_add]
      rfl

/-- Witness for C6: end-to-end scenario 2, filename `1898060.pdf` gives
work-order number `1898060`. -/
theorem c6_rule_based_extractor_witness :
    ((buildWorkOrderInputsFromEmail sampleEmailOnePdf).getD 0
      defaultInputNoUser).workOrderNumber = "1898060" :=
  ((c6_rule_based_extractor sampleEmailOnePdf).2.2 0 (by decide)).trans (by decide)

/-- The orchestrator's `existingNumbers` set (numbers of the rows the
duplicate query returned) contains a candidate number exactly when that
number is already persisted for the tenant. -/
theorem existingNumbers_contains (store : List WorkOrder) (u : Option String)
    (numbers : List String) (n : String) (hn : n ∈ numbers) :
    ((findByWorkOrderNumbers store u numbers).map (fun w => w.workOrderNumber)).contains n
      = persistedForTenant store u n := by
  have hne : (numbers.length == 0) = false := by
    simp [List.length_eq_zero]
    intro h
    rw [h] at hn
    exact List.not_mem_nil n hn
  rw [Bool.eq_iff_iff]
  simp only [findByWorkOrderNumbers, hne, Bool.false_eq_true, if_false,
    persistedForTenant, List.any_eq_true]
  rw [List.elem_iff]
  constructor
  · intro h
    obtain ⟨wo, hwo, hnum⟩ := List.mem_map.mp h
    obtain ⟨hmem, hp⟩ := List.mem_filter.mp hwo
    rcases Bool.and_eq_true_iff.mp hp with ⟨hmatch, _⟩
    exact ⟨wo, hmem, by rw [hmatch, hnum]; simp⟩
  · rintro ⟨wo, hmem, hcond⟩
    rcases Bool.and_eq_true_iff.mp hcond with ⟨hmatch, hbeq⟩
    have hnumeq : wo.workOrderNumber = n := beq_iff_eq.mp hbeq
    apply List.mem_map.mpr
    refine ⟨wo, List.mem_filter.mpr ⟨hmem, ?_⟩, hnumeq⟩
    rw [hmatch, Bool.true_and, hnumeq]
    exact List.elem_iff.mpr hn

/-- Normal form of the orchestrator on a non-empty candidate list: the
duplicate partition is keyed by `persistedForTenant`, the created rows
are the non-duplicates in order, and the store grows by exactly the
created rows. -/

theorem process_nonempty (email : EmailMessage) (ai : Option (List WorkOrderInputNoUser))
    (u : Option String) (store : List WorkOrder)
    (h : computeCandidateInputs email ai ≠ []) :
    processSingleEmailMessage email ai u store =
      (let inputs := (computeCandidateInputs email ai).map fun w => attachUserId w u
       let newInputs := inputs.filter fun w => !persistedForTenant store u w.workOrderNumber
       let created := newInputs.map workOrderOfInput
       let dups := (inputs.map fun w => w.workOrderNumber).filter fun n =>
         persistedForTenant store u n
       let skipped := created.length == 0 && dups.length != 0
       ({ email := updateStatus email (if skipped then "skipped_duplicate" else "processed"),
          createdWorkOrders := created, skippedAsDuplicate := skipped,
          duplicateWorkOrderNumbers := dups }, store ++ created)) := by
  have hlen : ((computeCandidateInputs email ai).length == 0) = false := by
    simp [List.length_eq_zero, h]
  set cand := computeCandidateInputs email ai with hcand
  set inputs := cand.map (fun w => attachUserId w u) with hinputs
  set numbers := inputs.map (fun w => w.workOrderNumber) with hnumbers
  have hmemnum : ∀ w ∈ inputs, w.workOrderNumber ∈ numbers := by
    intro w hw
    rw [hnumbers]
    exact List.mem_map_of_mem _ hw
  have hfilter1 : inputs.filter (fun w =>
      !(((findByWorkOrderNumbers store u numbers).map
          (fun w => w.workOrderNumber)).contains w.workOrderNumber))
      = inputs.filter (fun w => !persistedForTenant store u w.workOrderNumber) := by
    apply List.filter_congr
    intro w hw
    rw [existingNumbers_contains store u numbers w.workOrderNumber (hmemnum w hw)]
  have hfilter2 : numbers.filter (fun n =>
      ((findByWorkOrderNumbers store u numbers).map
          (fun w => w.workOrderNumber)).contains n)
      = numbers.filter (fun n => persistedForTenant store u n) := by
    apply List.filter_congr
    intro n hn
    rw [existingNumbers_contains store u numbers n hn]
  have hsave : (if ((inputs.filter (fun w =>
        !persistedForTenant store u w.workOrderNumber)).length != 0)
        then saveMany store (inputs.filter (fun w =>
          !persistedForTenant store u w.workOrderNumber))
        else ([], store))
      = ((inputs.filter (fun w => !persistedForTenant store u w.workOrderNumber)).map
          workOrderOfInput,
         store ++ (inputs.filter (fun w =>
           !persistedForTenant store u w.workOrderNumber)).map workOrderOfInput) := by
    by_cases hnil : inputs.filter (fun w => !persistedForTenant store u w.workOrderNumber) = []
    · rw [hnil]
      simp [saveMany]
    · have hl : ((inputs.filter (fun w =>
          !persistedForTenant store u w.workOrderNumber)).length != 0) = true := by
        simp [List.length_eq_zero, hnil]
      rw [hl]
      simp [saveMany]
  simp only [processSingleEmailMessage, hlen, Bool.false_eq_true, if_false,
    ← hcand, ← hinputs, ← hnumbers, hfilter1, hfilter2, hsave]


theorem userIdMatches_self (u : Option String) : userIdMatches u u = true := by
  cases u <;> simp [userIdMatches]

theorem userIdMatches_ne (a b : Option String) (h : a ≠ b) : userIdMatches a b = false := by
  cases b with
  | none =>
    cases a with
    | none => exact absurd rfl h
    | some x => simp [userIdMatches]
  | some u =>
    cases a with
    | none => simp [userIdMatches]
    | some x =>
      simp only [userIdMatches, beq_eq_false_iff_ne, ne_eq]
      intro hx
      exact h (by rw [hx])

theorem persistedForTenant_append (s t : List WorkOrder) (u : Option String) (n : String) :
    persistedForTenant (s ++ t) u n
      = (persistedForTenant s u n || persistedForTenant t u n) := by
  simp [persistedForTenant, List.any_append]

theorem persistedForTenant_other_tenant (recs : List WorkOrder)
    (tenantA tenantB : Option String) (hAB : tenantA ≠ tenantB)
    (hrecs : ∀ wo ∈ recs, wo.userId = tenantA) (n : String) :
    persistedForTenant recs tenantB n = false := by
  apply List.any_eq_false.mpr
  intro wo hwo
  rw [hrecs wo hwo, userIdMatches_ne tenantA tenantB hAB, Bool.false_and]
  exact Bool.false_ne_true

/-- The store after a processing call is the old store plus exactly the
created rows (one `saveMany` append). -/
theorem process_store_eq (email : EmailMessage) (ai : Option (List WorkOrderInputNoUser))
    (u : Option String) (store : List WorkOrder) :
    (processSingleEmailMessage email ai u store).2
      = store ++ (processSingleEmailMessage email ai u store).1.createdWorkOrders := by
  by_cases h : computeCandidateInputs email ai = []
  · simp [processSingleEmailMessage, h]
  · rw [process_nonempty email ai u store h]

/-- Normal form of the created rows on a non-empty candidate list. -/
theorem process_created_eq (email : EmailMessage) (ai : Option (List WorkOrderInputNoUser))
    (u : Option String) (store : List WorkOrder)
    (h : computeCandidateInputs email ai ≠ []) :
    (processSingleEmailMessage email ai u store).1.createdWorkOrders
      = (((computeCandidateInputs email ai).map (fun w => attachUserId w u)).filter
          (fun w => !persistedForTenant store u w.workOrderNumber)).map workOrderOfInput := by
  rw [process_nonempty email ai u store h]

/-- Normal form of the duplicate-number list on a non-empty candidate list. -/
theorem process_dups_eq (email : EmailMessage) (ai : Option (List WorkOrderInputNoUser))
    (u : Option String) (store : List WorkOrder)
    (h : computeCandidateInputs email ai ≠ []) :
    (processSingleEmailMessage email ai u store).1.duplicateWorkOrderNumbers
      = ((computeCandidateInputs email ai).map (fun w => w.workOrderNumber)).filter
          (fun n => persistedForTenant store u n) := by
  rw [process_nonempty email ai u store h]
  dsimp only
  rw [List.map_map]
  rfl

/-- After a run on a non-empty candidate list, every candidate's number is
persisted for the tenant in the resulting store. -/
theorem process_persists (email : EmailMessage) (ai : Option (List WorkOrderInputNoUser))
    (u : Option String) (store : List WorkOrder)
    (h : computeCandidateInputs email ai ≠ []) :
    ∀ w ∈ computeCandidateInputs email ai,
      persistedForTenant (processSingleEmailMessage email ai u store).2 u
        w.workOrderNumber = true := by
  intro w hw
  rw [process_store_eq, persistedForTenant_append]
  by_cases hp : persistedForTenant store u w.workOrderNumber = true
  · rw [hp, Bool.true_or]
  · have hfalse : persistedForTenant store u w.workOrderNumber = false :=
      Bool.eq_false_iff.mpr hp
    have hmem : workOrderOfInput (attachUserId w u)
        ∈ (processSingleEmailMessage email ai u store).1.createdWorkOrders := by
      rw [process_created_eq email ai u store h]
      apply List.mem_map_of_mem
      apply List.mem_filter.mpr
      refine ⟨List.mem_map_of_mem _ hw, ?_⟩
      have hn : (attachUserId w u).workOrderNumber = w.workOrderNumber := rfl
      rw [hn, hfalse]
      rfl
    have : persistedForTenant
        (processSingleEmailMessage email ai u store).1.createdWorkOrders u
        w.workOrderNumber = true := by
      apply List.any_eq_true.mpr
      refine ⟨workOrderOfInput (attachUserId w u), hmem, ?_⟩
      have hu : (workOrderOfInput (attachUserId w u)).userId = u := rfl
      have hn : (workOrderOfInput (attachUserId w u)).workOrderNumber
          = w.workOrderNumber := rfl
      rw [hu, hn, userIdMatches_self, Bool.true_and]
      simp
    rw [this, Bool.or_true]

/-- When every candidate's number is already persisted for the tenant,
the run creates nothing, reports every candidate number as a duplicate,
leaves the store unchanged and marks the email `skipped_duplicate`. -/
theorem process_all_persisted (email : EmailMessage) (ai : Option (List WorkOrderInputNoUser))
    (u : Option String) (store : List WorkOrder)
    (h : computeCandidateInputs email ai ≠ [])
    (hA : ∀ w ∈ computeCandidateInputs email ai,
      persistedForTenant store u w.workOrderNumber = true) :
    (processSingleEmailMessage email ai u store).1.createdWorkOrders = []
    ∧ (processSingleEmailMessage email ai u store).2 = store
    ∧ (processSingleEmailMessage email ai u store).1.email.processingStatus
        = "skipped_duplicate"
    ∧ (processSingleEmailMessage email ai u store).1.duplicateWorkOrderNumbers
        = (computeCandidateInputs email ai).map (fun w => w.workOrderNumber) := by
  have hnew : ((computeCandidateInputs email ai).map (fun w => attachUserId w u)).filter
      (fun w => !persistedForTenant store u w.workOrderNumber) = [] := by
    apply List.filter_eq_nil_iff.mpr
    intro w hw
    obtain ⟨w2, hw2, rfl⟩ := List.mem_map.mp hw
    simp only [Bool.not_eq_true', Bool.not_eq_false]
    exact hA w2 hw2
  have hcreated : (processSingleEmailMessage email ai u store).1.createdWorkOrders = [] := by
    rw [process_created_eq email ai u store h, hnew, List.map_nil]
  have hstore : (processSingleEmailMessage email ai u store).2 = store := by
    rw [process_store_eq, hcreated, List.append_nil]
  have hdups : (processSingleEmailMessage email ai u store).1.duplicateWorkOrderNumbers
      = (computeCandidateInputs email ai).map (fun w => w.workOrderNumber) := by
    rw [process_dups_eq email ai u store h]
    apply List.filter_eq_self.mpr
    intro n hn
    obtain ⟨w, hw, rfl⟩ := List.mem_map.mp hn
    exact hA w hw
  have hlennums : ((((computeCandidateInputs email ai).map (fun w => attachUserId w u)).map
      (fun w => w.workOrderNumber)).length != 0) = true := by
    simp only [bne_iff_ne, ne_eq, List.length_eq_zero, List.map_eq_nil_iff]
    exact h
  have hstatus : (processSingleEmailMessage email ai u store).1.email.processingStatus
      = "skipped_duplicate" := by
    rw [process_nonempty email ai u store h]
    simp only [updateStatus]
    rw [hnew]
    have hnums : (((computeCandidateInputs email ai).map (fun w => attachUserId w u)).map
        (fun w => w.workOrderNumber)).filter (fun n => persistedForTenant store u n)
        = ((computeCandidateInputs email ai).map (fun w => attachUserId w u)).map
          (fun w => w.workOrderNumber) := by
      apply List.filter_eq_self.mpr
      intro n hn
      obtain ⟨w, hw, rfl⟩ := List.mem_map.mp hn
      obtain ⟨w2, hw2, rfl⟩ := List.mem_map.mp hw
      exact hA w2 hw2
    rw [hnums]
    simp only [List.map_nil, List.length_nil, hlennums]
    rfl
  exact ⟨hcreated, hstore, hstatus, hdups⟩

/-- When some candidate's number is not yet persisted, the run creates at
least that row and marks the email `processed`. -/
theorem process_some_new (email : EmailMessage) (ai : Option (List WorkOrderInputNoUser))
    (u : Option String) (store : List WorkOrder)
    (h : computeCandidateInputs email ai ≠ [])
    (hnA : ¬ ∀ w ∈ computeCandidateInputs email ai,
      persistedForTenant store u w.workOrderNumber = true) :
    (processSingleEmailMessage email ai u store).1.email.processingStatus = "processed"
    ∧ (processSingleEmailMessage email ai u store).1.createdWorkOrders ≠ [] := by
  obtain ⟨w2, hw2, hfalse⟩ : ∃ w2 ∈ computeCandidateInputs email ai,
      persistedForTenant store u w2.workOrderNumber = false := by
    push_neg at hnA
    obtain ⟨w2, hw2, hne⟩ := hnA
    exact ⟨w2, hw2, Bool.eq_false_iff.mpr hne⟩
  have hmem : attachUserId w2 u ∈ ((computeCandidateInputs email ai).map
      (fun w => attachUserId w u)).filter
        (fun w => !persistedForTenant store u w.workOrderNumber) := by
    apply List.mem_filter.mpr
    refine ⟨List.mem_map_of_mem _ hw2, ?_⟩
    have hn : (attachUserId w2 u).workOrderNumber = w2.workOrderNumber := rfl
    rw [hn, hfalse]
    rfl
  have hne : ((computeCandidateInputs email ai).map (fun w => attachUserId w u)).filter
      (fun w => !persistedForTenant store u w.workOrderNumber) ≠ [] := by
    intro hnil
    rw [hnil] at hmem
    exact List.not_mem_nil _ hmem
  constructor
  · have hlen0 : (((((computeCandidateInputs email ai).map (fun w => attachUserId w u)).filter
        (fun w => !persistedForTenant store u w.workOrderNumber)).map
          workOrderOfInput).length == 0) = false := by
      simp only [beq_eq_false_iff_ne, ne_eq, List.length_eq_zero, List.map_eq_nil_iff]
      exact hne
    rw [process_nonempty email ai u store h]
    simp only [updateStatus]
    rw [hlen0]
    simp only [Bool.false_and]
    rfl
  · rw [process_created_eq email ai u store h]
    simp only [ne_eq, List.map_eq_nil_iff]
    exact hne

/-- C1: on a non-empty candidate list the orchestrator sets the email
status to `skipped_duplicate` exactly when the insert set is empty, i.e.
when every candidate's work-order number is already persisted for the
tenant, and to `processed` otherwise; on an empty candidate list it sets
`processed` immediately and returns no created work orders with
`skippedAsDuplicate = false`. -/
theorem c1_status_derivation (email : EmailMessage)
    (ai : Option (List WorkOrderInputNoUser)) (u : Option String)
    (store : List WorkOrder) :
    (computeCandidateInputs email ai = [] →
      (processSingleEmailMessage email ai u store).1.email.processingStatus = "processed"
      ∧ (processSingleEmailMessage email ai u store).1.createdWorkOrders = []
      ∧ (processSingleEmailMessage email ai u store).1.skippedAsDuplicate = false
      ∧ (processSingleEmailMessage email ai u store).1.duplicateWorkOrderNumbers = [])
    ∧ (computeCandidateInputs email ai ≠ [] →
      ((processSingleEmailMessage email ai u store).1.email.processingStatus
          = "skipped_duplicate"
        ↔ ∀ w ∈ computeCandidateInputs email ai,
            persistedForTenant store u w.workOrderNumber = true)
      ∧ (¬(∀ w ∈ computeCandidateInputs email ai,
            persistedForTenant store u w.workOrderNumber = true) →
          (processSingleEmailMessage email ai u store).1.email.processingStatus
            = "processed")) := by
  constructor
  · intro h
    simp [processSingleEmailMessage, h, updateStatus]
  · intro h
    by_cases hA : ∀ w ∈ computeCandidateInputs email ai,
        persistedForTenant store u w.workOrderNumber = true
    · have hres := process_all_persisted email ai u store h hA
      exact ⟨iff_of_true hres.2.2.1 hA, fun hnA => absurd hA hnA⟩
    · have hres := process_some_new email ai u store h hA
      refine ⟨iff_of_false ?_ hA, fun _ => hres.1⟩
      rw [hres.1]
      decide

/-- Witness for C1: a single candidate whose number is already persisted
for the tenant yields status `skipped_duplicate`. -/
theorem c1_status_derivation_witness :
    (processSingleEmailMessage sampleEmailOnePdf none (some "u1")
      [sampleRow1898060]).1.email.processingStatus = "skipped_duplicate" :=
  ((c1_status_derivation sampleEmailOnePdf none (some "u1")
    [sampleRow1898060]).2 (by decide)).1.mpr (by decide)


/-- C2 counterexample: for an email with no PDF attachments (empty
candidate list) the second identical processing call sets status
`processed`, not `skipped_duplicate`, so the claim's universal
quantification over every email fails. -/
theorem c2_idempotent_counterexample :
    (processSingleEmailMessage sampleEmailNoAttachments none (some "u1")
      (processSingleEmailMessage sampleEmailNoAttachments none (some "u1") []).2).1.email.processingStatus
      = "processed"
    ∧ (processSingleEmailMessage sampleEmailNoAttachments none (some "u1")
        (processSingleEmailMessage sampleEmailNoAttachments none (some "u1") []).2).1.email.processingStatus
      ≠ "skipped_duplicate"
    ∧ computeCandidateInputs sampleEmailNoAttachments none = [] := by decide

/-- C2 (amended): for every email whose candidate list is non-empty,
processing it twice against the same tenant with persistence retained
inserts rows only on the first call — the second call creates nothing and
leaves the store unchanged, reports every number created by the first
call among its `duplicateWorkOrderNumbers`, and sets the email status to
`skipped_duplicate`. -/
theorem c2_idempotent_amended (email : EmailMessage)
    (ai : Option (List WorkOrderInputNoUser)) (u : Option String)
    (s0 : List WorkOrder) (h : computeCandidateInputs email ai ≠ []) :
    (processSingleEmailMessage email ai u
        (processSingleEmailMessage email ai u s0).2).1.createdWorkOrders = []
    ∧ (processSingleEmailMessage email ai u
        (processSingleEmailMessage email ai u s0).2).2
      = (processSingleEmailMessage email ai u s0).2
    ∧ (processSingleEmailMessage email ai u
        (processSingleEmailMessage email ai u s0).2).1.email.processingStatus
      = "skipped_duplicate"
    ∧ ∀ wo ∈ (processSingleEmailMessage email ai u s0).1.createdWorkOrders,
        wo.workOrderNumber ∈ (processSingleEmailMessage email ai u
          (processSingleEmailMessage email ai u s0).2).1.duplicateWorkOrderNumbers := by
  have hA := process_persists email ai u s0 h
  have hres := process_all_persisted email ai u
    (processSingleEmailMessage email ai u s0).2 h hA
  refine ⟨hres.1, hres.2.1, hres.2.2.1, ?_⟩
  intro wo hwo
  rw [hres.2.2.2]
  rw [process_created_eq email ai u s0 h] at hwo
  obtain ⟨w1, hw1, rfl⟩ := List.mem_map.mp hwo
  obtain ⟨hw1in, _⟩ := List.mem_filter.mp hw1
  obtain ⟨w2, hw2, rfl⟩ := List.mem_map.mp hw1in
  have hn : (workOrderOfInput (attachUserId w2 u)).workOrderNumber
      = w2.workOrderNumber := rfl
  rw [hn]
  exact List.mem_map_of_mem _ hw2

/-- Witness for the amended C2: one PDF candidate, empty initial store —
the second call reports `skipped_duplicate`. -/
theorem c2_idempotent_amended_witness :
    (processSingleEmailMessage sampleEmailOnePdf none (some "u1")
        (processSingleEmailMessage sampleEmailOnePdf none (some "u1") []).2).1.createdWorkOrders = []
    ∧ (processSingleEmailMessage sampleEmailOnePdf none (some "u1")
        (processSingleEmailMessage sampleEmailOnePdf none (some "u1") []).2).1.email.processingStatus
      = "skipped_duplicate" :=
  have h := c2_idempotent_amended sampleEmailOnePdf none (some "u1") [] (by decide)
  ⟨h.1, h.2.2.1⟩

/-- C3: rows stored under one tenant are invisible to another tenant's
duplicate lookup (including the null tenant versus any non-null tenant,
in both directions) and do not change the other tenant's entire
processing outcome. -/
theorem c3_tenant_isolation (email : EmailMessage)
    (ai : Option (List WorkOrderInputNoUser)) (numbers : List String)
    (store recsA : List WorkOrder) (tenantA tenantB : Option String)
    (hAB : tenantA ≠ tenantB) (hrecs : ∀ wo ∈ recsA, wo.userId = tenantA) :
    findByWorkOrderNumbers (store ++ recsA) tenantB numbers
      = findByWorkOrderNumbers store tenantB numbers
    ∧ (∀ n, persistedForTenant (store ++ recsA) tenantB n
        = persistedForTenant store tenantB n)
    ∧ (processSingleEmailMessage email ai tenantB (store ++ recsA)).1
      = (processSingleEmailMessage email ai tenantB store).1 := by
  have hpers : ∀ n, persistedForTenant (store ++ recsA) tenantB n
      = persistedForTenant store tenantB n := by
    intro n
    rw [persistedForTenant_append,
      persistedForTenant_other_tenant recsA tenantA tenantB hAB hrecs n,
      Bool.or_false]
  refine ⟨?_, hpers, ?_⟩
  · by_cases hlen : (numbers.length == 0) = true
    · simp [findByWorkOrderNumbers, hlen]
    · have hlenf : (numbers.length == 0) = false := Bool.eq_false_iff.mpr hlen
      simp only [findByWorkOrderNumbers, hlenf, Bool.false_eq_true, if_false]
      rw [List.filter_append]
      have hnil : recsA.filter (fun wo =>
          userIdMatches wo.userId tenantB && numbers.contains wo.workOrderNumber) = [] := by
        apply List.filter_eq_nil_iff.mpr
        intro wo hwo
        rw [hrecs wo hwo, userIdMatches_ne tenantA tenantB hAB, Bool.false_and]
        exact Bool.false_ne_true
      rw [hnil, List.append_nil]
  · by_cases hcand : computeCandidateInputs email ai = []
    · simp [processSingleEmailMessage, hcand]
    · rw [process_nonempty email ai tenantB (store ++ recsA) hcand,
        process_nonempty email ai tenantB store hcand]
      have hfun1 : (fun w : WorkOrderInput =>
          !persistedForTenant (store ++ recsA) tenantB w.workOrderNumber)
          = (fun w => !persistedForTenant store tenantB w.workOrderNumber) :=
        funext fun w => by rw [hpers w.workOrderNumber]
      have hfun2 : (fun n => persistedForTenant (store ++ recsA) tenantB n)
          = (fun n => persistedForTenant store tenantB n) := funext hpers
      dsimp only
      rw [hfun1, hfun2]

/-- Witness for C3: a row under tenant `other` neither shows up in the
`u1` duplicate lookup nor changes `u1` processing. -/
theorem c3_tenant_isolation_witness :
    findByWorkOrderNumbers ([] ++ [sampleRowOtherTenant]) (some "u1") ["555555"]
      = findByWorkOrderNumbers [] (some "u1") ["555555"]
    ∧ (processSingleEmailMessage sampleEmailOnePdf none (some "u1")
        ([] ++ [sampleRowOtherTenant])).1
      = (processSingleEmailMessage sampleEmailOnePdf none (some "u1") []).1 :=
  have h := c3_tenant_isolation sampleEmailOnePdf none ["555555"] []
    [sampleRowOtherTenant] (some "other") (some "u1") (by decide) (by decide)
  ⟨h.1, h.2.2⟩


theorem count_filter_bool (l : List String) (p : String → Bool) (n : String) :
    (l.filter p).count n = if p n then l.count n else 0 := by
  induction l with
  | nil => simp
  | cons a t ih =>
    by_cases hpa : p a
    · by_cases han : a = n
      · subst han
        simp [List.filter_cons, hpa, List.count_cons, ih]
      · simp [List.filter_cons, hpa, List.count_cons, han, ih]
    · by_cases han : a = n
      · subst han
        simp [List.filter_cons, hpa, List.count_cons, ih]
      · simp [List.filter_cons, hpa, List.count_cons, han, ih]

theorem count_map_filter_inputs (l : List WorkOrderInput) (p : String → Bool) (n : String) :
    ((l.filter (fun w => p w.workOrderNumber)).map (fun w => w.workOrderNumber)).count n
      = if p n then (l.map (fun w => w.workOrderNumber)).count n else 0 := by
  induction l with
  | nil => simp
  | cons a t ih =>
    by_cases han : a.workOrderNumber = n
    · have hpan : p a.workOrderNumber = p n := by rw [han]
      by_cases hpn : p n = true
      · have hpa : p a.workOrderNumber = true := by rw [hpan, hpn]
        simp [List.filter_cons, hpa, List.count_cons, ih, han, hpn]
      · have hpa : p a.workOrderNumber = false := by
          rw [hpan]
          exact Bool.eq_false_iff.mpr hpn
        simp [List.filter_cons, hpa, List.count_cons, ih, han, hpn]
    · by_cases hpa : p a.workOrderNumber
      · simp [List.filter_cons, hpa, List.count_cons, han, ih]
      · simp [List.filter_cons, hpa, List.count_cons, han, ih]

/-- C10: duplicate suppression compares candidates only against persisted
rows, never against each other: for a number not yet persisted, every
candidate bearing it (with multiplicity) is created in the single
`saveMany` append and none is reported as a duplicate; for an already
persisted number, every candidate bearing it is reported in
`duplicateWorkOrderNumbers` (one entry per candidate, so repeats are
possible) and none is created. -/
theorem c10_within_invocation_duplicates (email : EmailMessage)
    (ai : Option (List WorkOrderInputNoUser)) (u : Option String)
    (store : List WorkOrder) (h : computeCandidateInputs email ai ≠ []) :
    ∀ n : String,
      (persistedForTenant store u n = false →
        ((processSingleEmailMessage email ai u store).1.createdWorkOrders.map
            (fun w => w.workOrderNumber)).count n
          = ((computeCandidateInputs email ai).map (fun w => w.workOrderNumber)).count n
        ∧ (processSingleEmailMessage email ai u store).1.duplicateWorkOrderNumbers.count n
          = 0)
      ∧ (persistedForTenant store u n = true →
        (processSingleEmailMessage email ai u store).1.duplicateWorkOrderNumbers.count n
          = ((computeCandidateInputs email ai).map (fun w => w.workOrderNumber)).count n
        ∧ ((processSingleEmailMessage email ai u store).1.createdWorkOrders.map
            (fun w => w.workOrderNumber)).count n = 0)
      ∧ (processSingleEmailMessage email ai u store).2
        = store ++ (processSingleEmailMessage email ai u store).1.createdWorkOrders := by
  intro n
  have hcreatedNums : (processSingleEmailMessage email ai u store).1.createdWorkOrders.map
      (fun w => w.workOrderNumber)
      = (((computeCandidateInputs email ai).map (fun w => attachUserId w u)).filter
          (fun w => !persistedForTenant store u w.workOrderNumber)).map
            (fun w : WorkOrderInput => w.workOrderNumber) := by
    rw [process_created_eq email ai u store h, List.map_map]
    rfl
  have hcount1 : ((processSingleEmailMessage email ai u store).1.createdWorkOrders.map
      (fun w => w.workOrderNumber)).count n
      = if !persistedForTenant store u n then
          ((computeCandidateInputs email ai).map (fun w => w.workOrderNumber)).count n
        else 0 := by
    rw [hcreatedNums,
      count_map_filter_inputs _ (fun m => !persistedForTenant store u m) n]
    have hmm : ((computeCandidateInputs email ai).map (fun w => attachUserId w u)).map
        (fun w : WorkOrderInput => w.workOrderNumber)
        = (computeCandidateInputs email ai).map (fun w => w.workOrderNumber) := by
      rw [List.map_map]
      rfl
    rw [hmm]
  have hcount2 : (processSingleEmailMessage email ai u store).1.duplicateWorkOrderNumbers.count n
      = if persistedForTenant store u n then
          ((computeCandidateInputs email ai).map (fun w => w.workOrderNumber)).count n
        else 0 := by
    rw [process_dups_eq email ai u store h,
      count_filter_bool _ (fun m => persistedForTenant store u m) n]
  refine ⟨?_, ?_, process_store_eq email ai u store⟩
  · intro hp
    rw [hcount1, hcount2, hp]
    simp
  · intro hp
    rw [hcount1, hcount2, hp]
    simp

/-- Witness for C10: two candidates sharing the fresh number `777777` are
both created in one call; the count doubles and no duplicate is
reported. -/
theorem c10_within_invocation_duplicates_witness :
    (((processSingleEmailMessage sampleEmailNoAttachments
        (some [sampleDupCandidate, sampleDupCandidate]) (some "u1") []).1.createdWorkOrders.map
          (fun w => w.workOrderNumber)).count "777777"
      = ((computeCandidateInputs sampleEmailNoAttachments
          (some [sampleDupCandidate, sampleDupCandidate])).map
            (fun w => w.workOrderNumber)).count "777777"
    ∧ (processSingleEmailMessage sampleEmailNoAttachments
        (some [sampleDupCandidate, sampleDupCandidate]) (some "u1")
          []).1.duplicateWorkOrderNumbers.count "777777" = 0)
    ∧ ((computeCandidateInputs sampleEmailNoAttachments
        (some [sampleDupCandidate, sampleDupCandidate])).map
          (fun w => w.workOrderNumber)).count "777777" = 2 :=
  ⟨(c10_within_invocation_duplicates sampleEmailNoAttachments
      (some [sampleDupCandidate, sampleDupCandidate]) (some "u1") [] (by decide)
      "777777").1 (by decide),
   by decide⟩

end NextExtract
